import Mathlib

/-!
# Verification of the Auditly SEO analysis engine

Shallow embedding of `src/auditly/seo_analyzer.py` (class `SEOAnalyzer`).
Findings are strings; the six extractors produce ordered lists of findings;
the scorer and suggestion generator consume them.  Python `float` arithmetic
is modelled exactly over `ℚ`; Python exceptions of external collaborators
(the domain-registry lookup and the mobile probe) are modelled as `Except`
inputs.  String helpers below reimplement, character-list based, exactly the
Python string primitives the source uses (`in`, `lower`, `split`, `replace`,
`startswith`, `endswith`, f-string `:.1f`/`:.2f` formatting), so that every
definition evaluates inside the kernel.
-/

/-- Python `s.lower()` (ASCII range, as all findings are ASCII). -/
def pyLower (s : String) : String := ⟨s.data.map Char.toLower⟩

/-- Occurrence of `pat` as a contiguous substring, Python's `pat in s` on char lists. -/
def hasSubstr (pat : List Char) : List Char → Bool
  | [] => pat.isEmpty
  | c :: rest => pat.isPrefixOf (c :: rest) || hasSubstr pat rest

/-- Python `pat in s` for strings. -/
def strContains (s pat : String) : Bool := hasSubstr pat.data s.data

/-- Python `s.startswith(p)`. -/
def strStarts (s p : String) : Bool := p.data.isPrefixOf s.data

/-- Python `s.endswith(p)`. -/
def strEnds (s p : String) : Bool := p.data.isSuffixOf s.data

/-- One scan step of Python `str.replace`: leftmost-first, non-overlapping.
`fuel` bounds the recursion by the length of the scanned list. -/
def replaceFuel (pat rep : List Char) : Nat → List Char → List Char
  | 0, s => s
  | _ + 1, [] => []
  | fuel + 1, c :: rest =>
    if !pat.isEmpty && pat.isPrefixOf (c :: rest) then
      rep ++ replaceFuel pat rep fuel (rest.drop (pat.length - 1))
    else
      c :: replaceFuel pat rep fuel rest

/-- Python `s.replace(pat, rep)` (all occurrences, left to right). -/
def pyReplace (s pat rep : String) : String :=
  ⟨replaceFuel pat.data rep.data s.data.length s.data⟩

/-- Helper for Python `str.split()`: split on whitespace runs, dropping empty pieces;
`cur` holds the current token reversed. -/
def splitWsAux (cur : List Char) : List Char → List (List Char)
  | [] => if cur.isEmpty then [] else [cur.reverse]
  | c :: rest =>
    if c.isWhitespace then
      if cur.isEmpty then splitWsAux [] rest
      else cur.reverse :: splitWsAux [] rest
    else splitWsAux (c :: cur) rest

/-- Python `s.split()` with no separator argument. -/
def pySplit (s : String) : List String := (splitWsAux [] s.data).map fun cs => ⟨cs⟩

/-- Floor of a rational as an integer (used only for decimal rendering). -/
def ratFloor (q : ℚ) : ℤ := q.num.fdiv q.den

/-- Round to the nearest integer, ties to even — the rounding of Python's
`format(float, '.Nf')`. -/
def roundHalfEven (q : ℚ) : ℤ :=
  let f := ratFloor q
  let r := q - (f : ℚ)
  if r < 1/2 then f
  else if 1/2 < r then f + 1
  else if f % 2 = 0 then f else f + 1

/-- Zero-pad a digit string on the left to the requested width. -/
def padZeros (s : String) (width : Nat) : String :=
  ⟨List.replicate (width - s.length) '0'⟩ ++ s

/-- Python f-string fixed-point formatting `f"{q:.d f}"` over exact rationals. -/
def fmtFixed (decimals : Nat) (q : ℚ) : String :=
  let scale : ℤ := (10 : ℤ) ^ decimals
  let n := roundHalfEven (q * (scale : ℚ))
  let sign := if n < 0 then "-" else ""
  let m := n.natAbs
  sign ++ toString (m / 10 ^ decimals) ++ "." ++ padZeros (toString (m % 10 ^ decimals)) decimals

/-- `f"{q:.1f}"`. -/
def fmt1 (q : ℚ) : String := fmtFixed 1 q

/-- `f"{q:.2f}"`. -/
def fmt2 (q : ℚ) : String := fmtFixed 2 q

/-! ## Scorer (`calculate_scores`, seo_analyzer.py lines 330-368) -/

/-- `count_issues(analysis, keywords)`: findings whose lowercased text contains
one of the keywords as a substring. -/
def count_issues (analysis keywords : List String) : Nat :=
  (analysis.filter fun x => keywords.any fun k => strContains (pyLower x) k).length

/-- The dictionary returned by `calculate_scores`. -/
structure Scores where
  meta : ℚ
  content : ℚ
  technical : ℚ
  speed : ℚ
  security : ℚ
  links : ℚ
  overall : ℚ

/-- Python `max(0, min(100, x))`. -/
def clamp100 (x : ℚ) : ℚ := max 0 (min 100 x)

/-- `calculate_scores`: per-category deductions, clamping, weighted overall. -/
def calculate_scores (meta_analysis content_analysis technical_analysis
    speed_analysis security_analysis link_analysis : List String) : Scores :=
  let meta_score : ℚ := 100 - (count_issues meta_analysis ["missing", "too", "no"] * 15 : ℕ)
  let content_score : ℚ :=
    100 - (count_issues content_analysis ["missing", "too short", "multiple"] * 10 : ℕ)
  let technical_score : ℚ :=
    100 - (count_issues technical_analysis ["not", "slow", "needs"] * 20 : ℕ)
  let speed_score : ℚ := 100 - (count_issues speed_analysis ["slow", "large"] * 25 : ℕ)
  let security_score : ℚ :=
    100 - (count_issues security_analysis ["not", "risk", "could not"] * 30 : ℕ)
  let link_score : ℚ := 100 - (count_issues link_analysis ["broken", "invalid"] * 15 : ℕ)
  let meta := clamp100 meta_score
  let content := clamp100 content_score
  let technical := clamp100 technical_score
  let speed := clamp100 speed_score
  let security := clamp100 security_score
  let links := clamp100 link_score
  let overall_score : ℚ :=
    meta * 0.2 + content * 0.25 + technical * 0.15 + speed * 0.15 + security * 0.15 + links * 0.1
  { meta := meta, content := content, technical := technical, speed := speed,
    security := security, links := links, overall := clamp100 overall_score }

lemma clamp100_nonneg (x : ℚ) : 0 ≤ clamp100 x := le_max_left 0 _

lemma clamp100_le (x : ℚ) : clamp100 x ≤ 100 :=
  max_le (by norm_num) (min_le_left 100 x)

lemma clamp100_eq_self {x : ℚ} (h0 : 0 ≤ x) (h1 : x ≤ 100) : clamp100 x = x := by
  unfold clamp100
  rw [min_eq_right h1, max_eq_right h0]

/-- C1: each sub-score is 100 minus the per-issue deduction times the number of
findings whose lowercased text contains one of the category's keywords as a
substring, clamped to [0, 100]; hence every sub-score lies in [0, 100]. -/
theorem calculate_scores_subscores (m c t s se l : List String) :
    ((calculate_scores m c t s se l).meta = clamp100 (100 - 15 *
        (m.countP (fun x => ["missing", "too", "no"].any fun k => strContains (pyLower x) k) : ℚ))
      ∧ 0 ≤ (calculate_scores m c t s se l).meta ∧ (calculate_scores m c t s se l).meta ≤ 100)
    ∧ ((calculate_scores m c t s se l).content = clamp100 (100 - 10 *
        (c.countP (fun x => ["missing", "too short", "multiple"].any
          fun k => strContains (pyLower x) k) : ℚ))
      ∧ 0 ≤ (calculate_scores m c t s se l).content ∧ (calculate_scores m c t s se l).content ≤ 100)
    ∧ ((calculate_scores m c t s se l).technical = clamp100 (100 - 20 *
        (t.countP (fun x => ["not", "slow", "needs"].any fun k => strContains (pyLower x) k) : ℚ))
      ∧ 0 ≤ (calculate_scores m c t s se l).technical ∧ (calculate_scores m c t s se l).technical ≤ 100)
    ∧ ((calculate_scores m c t s se l).speed = clamp100 (100 - 25 *
        (s.countP (fun x => ["slow", "large"].any fun k => strContains (pyLower x) k) : ℚ))
      ∧ 0 ≤ (calculate_scores m c t s se l).speed ∧ (calculate_scores m c t s se l).speed ≤ 100)
    ∧ ((calculate_scores m c t s se l).security = clamp100 (100 - 30 *
        (se.countP (fun x => ["not", "risk", "could not"].any
          fun k => strContains (pyLower x) k) : ℚ))
      ∧ 0 ≤ (calculate_scores m c t s se l).security ∧ (calculate_scores m c t s se l).security ≤ 100)
    ∧ ((calculate_scores m c t s se l).links = clamp100 (100 - 15 *
        (l.countP (fun x => ["broken", "invalid"].any fun k => strContains (pyLower x) k) : ℚ))
      ∧ 0 ≤ (calculate_scores m c t s se l).links ∧ (calculate_scores m c t s se l).links ≤ 100) := by
  have hc : ∀ (a ks : List String),
      (count_issues a ks : ℚ) = (a.countP (fun x => ks.any fun k => strContains (pyLower x) k) : ℚ) := by
    intro a ks
    rw [count_issues, List.countP_eq_length_filter]
  refine ⟨⟨?_, clamp100_nonneg _, clamp100_le _⟩, ⟨?_, clamp100_nonneg _, clamp100_le _⟩,
    ⟨?_, clamp100_nonneg _, clamp100_le _⟩, ⟨?_, clamp100_nonneg _, clamp100_le _⟩,
    ⟨?_, clamp100_nonneg _, clamp100_le _⟩, ⟨?_, clamp100_nonneg _, clamp100_le _⟩⟩ <;>
    simp only [calculate_scores, ← hc] <;> push_cast <;> ring_nf

/-- C2: the overall score equals the weighted sum of the six clamped sub-scores
with weights 0.20/0.25/0.15/0.15/0.15/0.10 (summing to 1); the final clamp never
changes it, and the overall score lies in [0, 100]. -/
theorem calculate_scores_overall (m c t s se l : List String) :
    (calculate_scores m c t s se l).overall
      = (calculate_scores m c t s se l).meta * 0.2
        + (calculate_scores m c t s se l).content * 0.25
        + (calculate_scores m c t s se l).technical * 0.15
        + (calculate_scores m c t s se l).speed * 0.15
        + (calculate_scores m c t s se l).security * 0.15
        + (calculate_scores m c t s se l).links * 0.1
    ∧ 0 ≤ (calculate_scores m c t s se l).overall
    ∧ (calculate_scores m c t s se l).overall ≤ 100
    ∧ (0.2 + 0.25 + 0.15 + 0.15 + 0.15 + 0.1 : ℚ) = 1 := by
  have hb : ∀ x : ℚ, 0 ≤ clamp100 x ∧ clamp100 x ≤ 100 :=
    fun x => ⟨clamp100_nonneg x, clamp100_le x⟩
  obtain ⟨m0, m1⟩ := hb (100 - (count_issues m ["missing", "too", "no"] * 15 : ℕ))
  obtain ⟨c0, c1⟩ := hb (100 - (count_issues c ["missing", "too short", "multiple"] * 10 : ℕ))
  obtain ⟨t0, t1⟩ := hb (100 - (count_issues t ["not", "slow", "needs"] * 20 : ℕ))
  obtain ⟨s0, s1⟩ := hb (100 - (count_issues s ["slow", "large"] * 25 : ℕ))
  obtain ⟨se0, se1⟩ := hb (100 - (count_issues se ["not", "risk", "could not"] * 30 : ℕ))
  obtain ⟨l0, l1⟩ := hb (100 - (count_issues l ["broken", "invalid"] * 15 : ℕ))
  have hsum0 : (0 : ℚ) ≤ clamp100 (100 - (count_issues m ["missing", "too", "no"] * 15 : ℕ)) * 0.2
      + clamp100 (100 - (count_issues c ["missing", "too short", "multiple"] * 10 : ℕ)) * 0.25
      + clamp100 (100 - (count_issues t ["not", "slow", "needs"] * 20 : ℕ)) * 0.15
      + clamp100 (100 - (count_issues s ["slow", "large"] * 25 : ℕ)) * 0.15
      + clamp100 (100 - (count_issues se ["not", "risk", "could not"] * 30 : ℕ)) * 0.15
      + clamp100 (100 - (count_issues l ["broken", "invalid"] * 15 : ℕ)) * 0.1 := by
    nlinarith
  have hsum1 : clamp100 (100 - (count_issues m ["missing", "too", "no"] * 15 : ℕ)) * 0.2
      + clamp100 (100 - (count_issues c ["missing", "too short", "multiple"] * 10 : ℕ)) * 0.25
      + clamp100 (100 - (count_issues t ["not", "slow", "needs"] * 20 : ℕ)) * 0.15
      + clamp100 (100 - (count_issues s ["slow", "large"] * 25 : ℕ)) * 0.15
      + clamp100 (100 - (count_issues se ["not", "risk", "could not"] * 30 : ℕ)) * 0.15
      + clamp100 (100 - (count_issues l ["broken", "invalid"] * 15 : ℕ)) * 0.1 ≤ 100 := by
    nlinarith
  refine ⟨?_, ?_, ?_, by norm_num⟩
  · show clamp100 _ = _
    rw [clamp100_eq_self hsum0 hsum1]
    rfl
  · show (0 : ℚ) ≤ clamp100 _
    exact clamp100_nonneg _
  · show clamp100 _ ≤ 100
    exact clamp100_le _

/-! ## Suggestion generator (`generate_improvements`, seo_analyzer.py lines 370-400) -/

/-- The trigger vocabulary `issue_keywords` of `generate_improvements`. -/
def issue_keywords : List String :=
  ["missing", "too", "no", "not", "slow", "large", "multiple", "broken"]

/-- A finding whose lowercase text contains some trigger keyword. -/
def isIssue (finding : String) : Bool :=
  issue_keywords.any fun keyword => strContains (pyLower finding) keyword

/-- The chain of literal substitutions applied to a matched finding, in source order. -/
def rewriteSuggestion (issue : String) : String :=
  let s1 := pyReplace issue "Missing" "Add"
  let s2 := pyReplace s1 "Too short" "Increase length of"
  let s3 := pyReplace s2 "Too long" "Reduce length of"
  let s4 := pyReplace s3 "No " "Add "
  pyReplace s4 "Not " "Enable "

/-- `generate_improvements`: per category and finding, rewrite matched findings
and tag them with the owning category in brackets. -/
def generate_improvements (meta_analysis content_analysis technical_analysis
    speed_analysis security_analysis link_analysis : List String) : List String :=
  let all_analyses : List (String × List String) :=
    [("Meta Tags", meta_analysis), ("Content", content_analysis),
     ("Technical", technical_analysis), ("Speed", speed_analysis),
     ("Security", security_analysis), ("Links", link_analysis)]
  all_analyses.flatMap fun p =>
    p.2.filterMap fun issue =>
      if isIssue issue then some ("[" ++ (p.1 ++ ("] " ++ rewriteSuggestion issue))) else none

/-- C3 counterexample: the substitutions are case-sensitive, so the finding
"Title tag is too long (70 chars...)" — whose "too long" is lowercase — is not
rewritten at all; the claimed suggestion "[Meta Tags] Reduce length of title tag
is too long (70 chars...)" is not produced. -/
theorem improvements_too_long_unchanged :
    generate_improvements ["Title tag is too long (70 chars...)"] [] [] [] [] []
      = ["[Meta Tags] Title tag is too long (70 chars...)"]
    ∧ ("[Meta Tags] Title tag is too long (70 chars...)" : String)
      ≠ "[Meta Tags] Reduce length of title tag is too long (70 chars...)" := by
  constructor
  · rfl
  · decide

/-- C3 (amended): a finding matching a trigger keyword is rewritten by the five
literal substitutions in order, each on the result of the previous, then tagged
with the owning category in brackets; a finding matching none yields no
suggestion; "Missing title tag" yields "[Meta Tags] Add title tag", while
"Title tag is too long (70 chars...)" passes through unchanged because the
capitalised pattern "Too long" does not occur in it. -/
theorem improvements_rewrite_spec :
    (∀ f : String, isIssue f = false → generate_improvements [f] [f] [f] [f] [f] [f] = [])
    ∧ (∀ f : String, isIssue f = true →
        generate_improvements [f] [] [] [] [] [] = ["[Meta Tags] " ++ rewriteSuggestion f]
        ∧ rewriteSuggestion f =
            pyReplace (pyReplace (pyReplace (pyReplace (pyReplace f
              "Missing" "Add") "Too short" "Increase length of") "Too long" "Reduce length of")
              "No " "Add ") "Not " "Enable ")
    ∧ generate_improvements ["Missing title tag"] [] [] [] [] []
        = ["[Meta Tags] Add title tag"]
    ∧ generate_improvements ["Title tag is too long (70 chars...)"] [] [] [] [] []
        = ["[Meta Tags] Title tag is too long (70 chars...)"] := by
  refine ⟨?_, ?_, by rfl, by rfl⟩
  · intro f hf
    simp [generate_improvements, hf]
  · intro f hf
    constructor
    · simp [generate_improvements, hf]
      rfl
    · rfl

/-- Witness for the amended C3 theorem at concrete findings. -/
theorem improvements_rewrite_spec_witness :
    isIssue "Server: nginx" = false
    ∧ generate_improvements ["Server: nginx"] ["Server: nginx"] ["Server: nginx"]
        ["Server: nginx"] ["Server: nginx"] ["Server: nginx"] = []
    ∧ isIssue "Missing title tag" = true
    ∧ generate_improvements ["Missing title tag"] [] [] [] [] []
        = ["[Meta Tags] " ++ rewriteSuggestion "Missing title tag"] :=
  ⟨by decide, improvements_rewrite_spec.1 "Server: nginx" (by decide),
   by decide, (improvements_rewrite_spec.2.1 "Missing title tag" (by decide)).1⟩

/-! ## Speed extractor (`analyze_speed`, seo_analyzer.py lines 229-249) -/

/-- The slice of the HTTP response that `analyze_speed` reads: the elapsed
response time in seconds and the response headers (case-insensitive mapping,
modelled as an association list). -/
structure Response where
  elapsed : ℚ
  headers : List (String × String)

/-- Case-insensitive header lookup of `requests`' response headers. -/
def headersGet (hs : List (String × String)) (key : String) : Option String :=
  (hs.find? fun p => pyLower p.1 == pyLower key).map Prod.snd

/-- `analyze_speed`: response-time finding, then a page-size finding only when
`int(headers.get('content-length', 0))` is positive.  Header values are assumed
numeric (Python's `int()` would raise otherwise). -/
def analyze_speed (response : Response) : List String :=
  let response_time := response.elapsed
  let time_finding :=
    if response_time > 2 then
      "Slow server response time: " ++ (fmt2 response_time ++ "s (recommended: < 2s)")
    else
      "Good server response time: " ++ (fmt2 response_time ++ "s")
  let content_length : Nat :=
    match headersGet response.headers "content-length" with
    | some v => v.toNat?.getD 0
    | none => 0
  [time_finding] ++
    (if content_length > 0 then
      let size_mb : ℚ := (content_length : ℚ) / (1024 * 1024)
      if size_mb > 3 then
        ["Large page size: " ++ (fmt2 size_mb ++ "MB (recommended: < 3MB)")]
      else
        ["Good page size: " ++ (fmt2 size_mb ++ "MB")]
    else [])

unseal Rat.mul Rat.add Rat.sub Rat.inv in
/-- C4 counterexample: with no Content-Length header the extractor emits a single
finding (the response time) — not the two findings the claim asserts, and no
"good page size" finding at all. -/
theorem analyze_speed_missing_header_counterexample :
    analyze_speed ⟨1, []⟩ = ["Good server response time: 1.00s"]
    ∧ (analyze_speed ⟨1, []⟩).length ≠ 2 := by
  constructor
  · decide
  · decide

/-- C4 (amended): when the headers lack a Content-Length entry the page size is
treated as 0, the `content_length > 0` guard fails, and the extractor emits
exactly one finding — the response-time finding — with no size finding of any
kind; it never falls back to measuring the body length. -/
theorem analyze_speed_missing_header (r : Response)
    (h : headersGet r.headers "content-length" = none) :
    analyze_speed r =
      [if r.elapsed > 2 then
        "Slow server response time: " ++ (fmt2 r.elapsed ++ "s (recommended: < 2s)")
      else
        "Good server response time: " ++ (fmt2 r.elapsed ++ "s")]
    ∧ (analyze_speed r).length = 1 := by
  have : analyze_speed r =
      [if r.elapsed > 2 then
        "Slow server response time: " ++ (fmt2 r.elapsed ++ "s (recommended: < 2s)")
      else
        "Good server response time: " ++ (fmt2 r.elapsed ++ "s")] := by
    unfold analyze_speed
    rw [h]
    simp
  exact ⟨this, by rw [this]; rfl⟩

/-- Witness for the amended C4 theorem at a concrete header-free response. -/
theorem analyze_speed_missing_header_witness :
    headersGet (Response.mk 1 []).headers "content-length" = none
    ∧ analyze_speed ⟨1, []⟩ = [if (1 : ℚ) > 2 then
        "Slow server response time: " ++ (fmt2 1 ++ "s (recommended: < 2s)")
      else
        "Good server response time: " ++ (fmt2 1 ++ "s")] :=
  ⟨rfl, (analyze_speed_missing_header ⟨1, []⟩ rfl).1⟩

/-! ## The parsed document

The slice of the BeautifulSoup document the extractors query.  `title` is
`soup.title.string if soup.title else None`; `metaDescription` is the
`content` attribute of `<meta name="description">` when the tag and attribute
exist; `robots`/`canonical` hold `robots.get('content', '')` /
`canonical.get('href', '')` when the tag exists; `viewport` holds the
viewport tag's `content`; `ogCount` is the number of `og:*` meta tags;
`h1`..`h6` are heading counts; `images` and `anchors` carry the queried
attributes of `<img>` and `<a>` elements. -/

/-- An `<img>` element: optional `alt` attribute and `src` (default `''`). -/
structure Image where
  alt : Option String
  src : String

/-- An `<a>` element: optional `href` attribute and whether `rel="nofollow"`. -/
structure Anchor where
  href : Option String
  relNofollow : Bool

structure Soup where
  title : Option String
  metaDescription : Option String
  robots : Option String
  canonical : Option String
  viewport : Option String
  ogCount : Nat
  h1 : Nat
  h2 : Nat
  h3 : Nat
  h4 : Nat
  h5 : Nat
  h6 : Nat
  images : List Image
  anchors : List Anchor

/-! ## String disequality helpers -/

lemma data_append (s t : String) : (s ++ t).data = s.data ++ t.data := rfl

/-- Two concatenations differ when their constant heads differ at an index. -/
lemma append_ne_append {p q : String} (x y : String) (i : Nat)
    (hp : i < p.data.length) (hq : i < q.data.length)
    (hne : p.data[i]? ≠ q.data[i]?) : p ++ x ≠ q ++ y := by
  intro he
  have hd : (p.data ++ x.data)[i]? = (q.data ++ y.data)[i]? := by
    rw [← data_append, ← data_append, he]
  rw [List.getElem?_append_left hp, List.getElem?_append_left hq] at hd
  exact hne hd

/-- A literal string differs from a concatenation whose constant head differs
from it at an index. -/
lemma ne_append {p q : String} (y : String) (i : Nat)
    (hq : i < q.data.length) (hne : p.data[i]? ≠ q.data[i]?) : p ≠ q ++ y := by
  intro he
  have hd : p.data[i]? = (q.data ++ y.data)[i]? := by rw [← data_append, he]
  rw [List.getElem?_append_left hq] at hd
  exact hne hd

/-! ## Meta extractor (`analyze_meta_tags`, seo_analyzer.py lines 72-130) -/

def titleShortMsg (n : Nat) : String :=
  "Title tag is too short (" ++ (toString n ++ " chars, recommended: 50-60)")

def titleLongMsg (n : Nat) : String :=
  "Title tag is too long (" ++ (toString n ++ " chars, recommended: 50-60)")

def titleOptimalMsg (n : Nat) : String :=
  "Title tag length is optimal (" ++ (toString n ++ " chars)")

def descShortMsg (n : Nat) : String :=
  "Meta description is too short (" ++ (toString n ++ " chars, recommended: 120-155)")

def descLongMsg (n : Nat) : String :=
  "Meta description is too long (" ++ (toString n ++ " chars, recommended: 120-155)")

def descOptimalMsg (n : Nat) : String :=
  "Meta description length is optimal (" ++ (toString n ++ " chars)")

/-- `analyze_meta_tags`: six findings in fixed order (title, description,
robots, canonical, viewport, Open Graph). -/
def analyze_meta_tags (soup : Soup) : List String :=
  let title_finding :=
    match soup.title with
    | some title =>
      if title ≠ "" then
        if title.length < 30 then titleShortMsg title.length
        else if title.length > 60 then titleLongMsg title.length
        else titleOptimalMsg title.length
      else "Missing title tag"
    | none => "Missing title tag"
  let desc_finding :=
    match soup.metaDescription with
    | some content =>
      if content ≠ "" then
        if content.length < 120 then descShortMsg content.length
        else if content.length > 155 then descLongMsg content.length
        else descOptimalMsg content.length
      else "Missing meta description"
    | none => "Missing meta description"
  let robots_finding :=
    match soup.robots with
    | some content => "Robots meta tag found: " ++ content
    | none => "No robots meta tag found"
  let canonical_finding :=
    match soup.canonical with
    | some href => "Canonical URL is set to: " ++ href
    | none => "No canonical URL specified"
  let viewport_finding :=
    match soup.viewport with
    | some _ => "Viewport meta tag is properly set for mobile devices"
    | none => "Missing viewport meta tag for mobile responsiveness"
  let og_finding :=
    if soup.ogCount > 0 then
      "Found " ++ (toString soup.ogCount ++ " Open Graph tags for social media sharing")
    else "No Open Graph tags found for social media optimization"
  [title_finding, desc_finding, robots_finding, canonical_finding, viewport_finding, og_finding]

lemma titleShort_ne_long (m n : Nat) : titleShortMsg m ≠ titleLongMsg n := by
  unfold titleShortMsg titleLongMsg
  exact append_ne_append _ _ 17 (by decide) (by decide) (by decide)

lemma titleShort_ne_optimal (m n : Nat) : titleShortMsg m ≠ titleOptimalMsg n := by
  unfold titleShortMsg titleOptimalMsg
  exact append_ne_append _ _ 10 (by decide) (by decide) (by decide)

lemma titleLong_ne_optimal (m n : Nat) : titleLongMsg m ≠ titleOptimalMsg n := by
  unfold titleLongMsg titleOptimalMsg
  exact append_ne_append _ _ 10 (by decide) (by decide) (by decide)

lemma descShort_ne_long (m n : Nat) : descShortMsg m ≠ descLongMsg n := by
  unfold descShortMsg descLongMsg
  exact append_ne_append _ _ 24 (by decide) (by decide) (by decide)

lemma descShort_ne_optimal (m n : Nat) : descShortMsg m ≠ descOptimalMsg n := by
  unfold descShortMsg descOptimalMsg
  exact append_ne_append _ _ 17 (by decide) (by decide) (by decide)

lemma descLong_ne_optimal (m n : Nat) : descLongMsg m ≠ descOptimalMsg n := by
  unfold descLongMsg descOptimalMsg
  exact append_ne_append _ _ 17 (by decide) (by decide) (by decide)

/-- A strict three-way length classification yields each message exactly on
its own length range, provided the three messages are pairwise distinct. -/
lemma threeway_classify {v : String} {n lo hi : Nat} {a b c : Nat → String}
    (hlohi : lo ≤ hi)
    (hv : v = if n < lo then a n else if n > hi then b n else c n)
    (hab : ∀ m k, a m ≠ b k) (hac : ∀ m k, a m ≠ c k) (hbc : ∀ m k, b m ≠ c k) :
    (v = a n ↔ n < lo) ∧ (v = b n ↔ hi < n) ∧ (v = c n ↔ lo ≤ n ∧ n ≤ hi) := by
  by_cases h1 : n < lo
  · rw [if_pos h1] at hv
    subst hv
    exact ⟨⟨fun _ => h1, fun _ => rfl⟩,
      ⟨fun h => absurd h (hab n n), fun h => absurd rfl (by omega : ¬ (n = n))⟩,
      ⟨fun h => absurd h (hac n n), fun h => absurd h1 (by omega)⟩⟩
  · rw [if_neg h1] at hv
    by_cases h2 : n > hi
    · rw [if_pos h2] at hv
      subst hv
      exact ⟨⟨fun h => absurd h.symm (hab n n), fun h => absurd h (by omega)⟩,
        ⟨fun _ => h2, fun _ => rfl⟩,
        ⟨fun h => absurd h (hbc n n), fun h => absurd h2 (by omega)⟩⟩
    · rw [if_neg h2] at hv
      subst hv
      exact ⟨⟨fun h => absurd h.symm (hac n n), fun h => absurd h (by omega)⟩,
        ⟨fun h => absurd h.symm (hbc n n), fun h => absurd h (by omega)⟩,
        ⟨fun _ => ⟨by omega, by omega⟩, fun _ => rfl⟩⟩

/-- C5: with a nonempty title of length L, the first Meta finding is the
"too short" message iff L < 30, the "too long" message iff L > 60, and the
"optimal" message iff 30 ≤ L ≤ 60; the meta description receives the same
strict three-way classification with bounds 120 and 155. -/
theorem analyze_meta_tags_classification (soup : Soup) (t : String)
    (ht : soup.title = some t) (ht0 : t ≠ "") :
    (((analyze_meta_tags soup)[0]? = some (titleShortMsg t.length) ↔ t.length < 30)
    ∧ ((analyze_meta_tags soup)[0]? = some (titleLongMsg t.length) ↔ 60 < t.length)
    ∧ ((analyze_meta_tags soup)[0]? = some (titleOptimalMsg t.length) ↔
        30 ≤ t.length ∧ t.length ≤ 60))
    ∧ ∀ d : String, soup.metaDescription = some d → d ≠ "" →
      (((analyze_meta_tags soup)[1]? = some (descShortMsg d.length) ↔ d.length < 120)
      ∧ ((analyze_meta_tags soup)[1]? = some (descLongMsg d.length) ↔ 155 < d.length)
      ∧ ((analyze_meta_tags soup)[1]? = some (descOptimalMsg d.length) ↔
          120 ≤ d.length ∧ d.length ≤ 155)) := by
  constructor
  · have h0 : (analyze_meta_tags soup)[0]? =
        some (if t.length < 30 then titleShortMsg t.length
          else if t.length > 60 then titleLongMsg t.length
          else titleOptimalMsg t.length) := by
      simp [analyze_meta_tags, ht, ht0]
    obtain ⟨i1, i2, i3⟩ :=
      threeway_classify (v := if t.length < 30 then titleShortMsg t.length
          else if t.length > 60 then titleLongMsg t.length else titleOptimalMsg t.length)
        (by omega : (30 : Nat) ≤ 60) rfl titleShort_ne_long titleShort_ne_optimal
        titleLong_ne_optimal
    rw [h0]
    simp only [Option.some.injEq]
    exact ⟨i1, i2, i3⟩
  · intro d hd hd0
    have h1 : (analyze_meta_tags soup)[1]? =
        some (if d.length < 120 then descShortMsg d.length
          else if d.length > 155 then descLongMsg d.length
          else descOptimalMsg d.length) := by
      simp [analyze_meta_tags, hd, hd0]
    obtain ⟨i1, i2, i3⟩ :=
      threeway_classify (v := if d.length < 120 then descShortMsg d.length
          else if d.length > 155 then descLongMsg d.length else descOptimalMsg d.length)
        (by omega : (120 : Nat) ≤ 155) rfl descShort_ne_long descShort_ne_optimal
        descLong_ne_optimal
    rw [h1]
    simp only [Option.some.injEq]
    exact ⟨i1, i2, i3⟩

/-- Witness for C5 at a 29-character title. -/
theorem analyze_meta_tags_classification_witness :
    (analyze_meta_tags
        ⟨some "abcdefghijklmnopqrstuvwxyzabc", none, none, none, none, 0,
         0, 0, 0, 0, 0, 0, [], []⟩)[0]? =
      some (titleShortMsg ("abcdefghijklmnopqrstuvwxyzabc" : String).length)
    ↔ ("abcdefghijklmnopqrstuvwxyzabc" : String).length < 30 :=
  (analyze_meta_tags_classification
    ⟨some "abcdefghijklmnopqrstuvwxyzabc", none, none, none, none, 0,
     0, 0, 0, 0, 0, 0, [], []⟩
    "abcdefghijklmnopqrstuvwxyzabc" rfl (by decide)).1.1

/-! ## Security extractor (`analyze_security`, lines 251-282) and mobile probe
(`check_mobile_friendly`, lines 319-328)

The `whois` lookup — including hostname parsing, the network call and the
date arithmetic inside the `try` block — is an external collaborator that may
fail; it is modelled as an `Except Unit DomainInfo` input whose `error` case
corresponds to any exception reaching the bare `except:`.  Datetimes are
modelled as integer day numbers, so `(a - b).days` is integer subtraction.
The mobile probe's `requests.get` is likewise an `Except Unit Nat` input
carrying the status code on success. -/

/-- A whois date field: a single datetime or a list of datetimes. -/
inductive DateVal where
  | one : ℤ → DateVal
  | many : List ℤ → DateVal

/-- The `creation_date`/`expiration_date` fields of a whois record. -/
structure DomainInfo where
  creation_date : Option DateVal
  expiration_date : Option DateVal

/-- Python truthiness of a whois date field (`None` and `[]` are falsy). -/
def dateTruthy : Option DateVal → Bool
  | none => false
  | some (.one _) => true
  | some (.many ds) => !ds.isEmpty

/-- `creation_date[0] if isinstance(creation_date, list) else creation_date`. -/
def datePick : DateVal → ℤ
  | .one d => d
  | .many ds => ds.headD 0

/-- The HTTPS finding of `analyze_security`. -/
def httpsFinding (url : String) : String :=
  if strStarts url "https" then "Website is secured with HTTPS"
  else "Website is not using HTTPS (security risk)"

/-- `analyze_security`: HTTPS finding, then domain-registry findings, with any
lookup failure collapsed to the single "could not fetch" finding. -/
def analyze_security (url : String) (registry : Except Unit DomainInfo)
    (now : ℤ) : List String :=
  [httpsFinding url] ++
    (match registry with
     | .error _ => ["Could not fetch domain registration information"]
     | .ok domain_info =>
       (match domain_info.creation_date with
        | some d =>
          if dateTruthy (some d) then
            ["Domain age: " ++ (toString (now - datePick d) ++ " days")]
          else []
        | none => []) ++
       (match domain_info.expiration_date with
        | some d =>
          if dateTruthy (some d) then
            ["Days until domain expiry: " ++ toString (datePick d - now)]
          else []
        | none => []))

/-- `check_mobile_friendly`: 200 on success, `False` on any probe failure. -/
def check_mobile_friendly (probe : Except Unit Nat) : Bool :=
  match probe with
  | .ok status_code => status_code == 200
  | .error _ => false

lemma couldnot_ne_https (url : String) :
    "Could not fetch domain registration information" ≠ httpsFinding url := by
  unfold httpsFinding
  split <;> decide

/-- C8: the Security extractor degrades, never raises: a failed registry
lookup yields exactly the HTTPS finding plus one "Could not fetch domain
registration information" finding; a successful lookup never yields that
finding; the HTTPS finding is always first; and the mobile probe reports
`false` on failure and `status == 200` on success. -/
theorem analyze_security_degrades (url : String) (now : ℤ) (info : DomainInfo)
    (reg : Except Unit DomainInfo) (status : Nat) :
    analyze_security url (.error ()) now =
      [httpsFinding url, "Could not fetch domain registration information"]
    ∧ (analyze_security url (.ok info) now).count
        "Could not fetch domain registration information" = 0
    ∧ (analyze_security url reg now)[0]? = some (httpsFinding url)
    ∧ check_mobile_friendly (.error ()) = false
    ∧ check_mobile_friendly (.ok status) = (status == 200) := by
  refine ⟨rfl, ?_, ?_, rfl, rfl⟩
  · rw [List.count_eq_zero]
    intro hmem
    simp only [analyze_security, List.mem_append, List.mem_cons, List.not_mem_nil,
      or_false] at hmem
    rcases hmem with h | h | h
    · exact couldnot_ne_https url h
    · split at h
      · split at h
        · rw [List.mem_singleton] at h
          exact absurd h (ne_append _ 0 (by decide) (by decide))
        · exact absurd h (List.not_mem_nil _)
      · exact absurd h (List.not_mem_nil _)
    · split at h
      · split at h
        · rw [List.mem_singleton] at h
          exact absurd h (ne_append _ 0 (by decide) (by decide))
        · exact absurd h (List.not_mem_nil _)
      · exact absurd h (List.not_mem_nil _)
  · cases reg <;> simp [analyze_security]


/-! ## URL resolution (`urllib.parse`, external collaborator)

Model of the parts of `urlparse`/`urljoin` that `analyze_links` uses: scheme
splitting, the network-location (host) component, and resolution of an href
against an absolute http(s) base URL.  Dot-segment normalization and other
RFC 3986 corner cases the analyzer never exercises are not modelled. -/

/-- Valid URL scheme characters: a letter followed by letters, digits, `+`,
`-` or `.`. -/
def validSchemeChars (cs : List Char) : Bool :=
  match cs with
  | [] => false
  | c :: rest => c.isAlpha && rest.all fun d => d.isAlphanum || d = '+' || d = '-' || d = '.'

/-- Split `scheme:rest` when a valid scheme is present (scheme lowercased,
as `urlparse` does). -/
def splitScheme (u : String) : Option (String × String) :=
  let pre := u.data.takeWhile fun c => c ≠ ':'
  match u.data.drop pre.length with
  | c :: rest =>
    if c = ':' ∧ validSchemeChars pre then some (⟨pre.map Char.toLower⟩, ⟨rest⟩)
    else none
  | [] => none

/-- The scheme of a URL, or `""`. -/
def schemeOf (u : String) : String :=
  match splitScheme u with
  | some p => p.1
  | none => ""

/-- The URL with its scheme removed, if any. -/
def afterScheme (u : String) : String :=
  match splitScheme u with
  | some p => p.2
  | none => u

/-- `urlparse(u).netloc`: the host part between `//` and the next `/`, `?`
or `#`; `""` when the URL has no `//` part. -/
def netlocOf (u : String) : String :=
  let rest := afterScheme u
  if strStarts rest "//" then
    ⟨(rest.data.drop 2).takeWhile fun c => c ≠ '/' ∧ c ≠ '?' ∧ c ≠ '#'⟩
  else ""

/-- The path-and-after part following the netloc. -/
def pathOf (u : String) : String :=
  let rest := afterScheme u
  if strStarts rest "//" then
    ⟨(rest.data.drop 2).dropWhile fun c => c ≠ '/' ∧ c ≠ '?' ∧ c ≠ '#'⟩
  else rest

/-- Truncate at the fragment marker. -/
def stripFragment (u : String) : String :=
  ⟨u.data.takeWhile fun c => c ≠ '#'⟩

/-- Truncate at the query or fragment marker. -/
def stripQueryFragment (u : String) : String :=
  ⟨u.data.takeWhile fun c => c ≠ '?' ∧ c ≠ '#'⟩

/-- The base path up to and including its last `/` (the directory a relative
reference is resolved in). -/
def dirOf (p : String) : String :=
  let kept := (stripQueryFragment p).data.reverse.dropWhile fun c => c ≠ '/'
  if kept.isEmpty then "/" else ⟨kept.reverse⟩

/-- `urljoin(base, url)` for an absolute http(s) `base`. -/
def urljoin (base url : String) : String :=
  if url = "" then base
  else
    match splitScheme url with
    | some _ => url
    | none =>
      let scheme := schemeOf base
      if strStarts url "//" then scheme ++ (":" ++ url)
      else if strStarts url "/" then scheme ++ ("://" ++ (netlocOf base ++ url))
      else if strStarts url "#" then stripFragment base ++ url
      else if strStarts url "?" then stripQueryFragment base ++ url
      else scheme ++ ("://" ++ (netlocOf base ++ (dirOf (pathOf base) ++ url)))

/-! ## Links extractor (`analyze_links`, seo_analyzer.py lines 284-317) -/

/-- `analyze_links`: total anchors carrying an href; internal/external counts
over non-empty, non-fragment hrefs resolved against the page URL. -/
def analyze_links (url : String) (soup : Soup) : List String :=
  let links := soup.anchors.filter fun a => a.href.isSome
  let hrefs := links.filterMap fun a => a.href
  let kept := hrefs.filter fun href => !(href == "" || strStarts href "#")
  let base_domain := netlocOf url
  let resolved := kept.map fun href => urljoin url href
  let internal_links := resolved.filter fun au =>
    netlocOf au == base_domain || netlocOf au == ""
  let external_links := resolved.filter fun au =>
    !(netlocOf au == base_domain || netlocOf au == "")
  ["Total links found: " ++ toString links.length,
   "Internal links: " ++ toString internal_links.length,
   "External links: " ++ toString external_links.length] ++
    (let nofollow_links := (soup.anchors.filter fun a => a.relNofollow).length
     if nofollow_links > 0 then ["Links with nofollow: " ++ toString nofollow_links]
     else [])

lemma filter_isSome_filterMap (anchors : List Anchor) :
    (anchors.filter fun a => a.href.isSome).filterMap (fun a => a.href)
      = anchors.filterMap fun a => a.href := by
  induction anchors with
  | nil => rfl
  | cons a l ih =>
    rcases ha : a.href with _ | v <;>
      simp [List.filter_cons, List.filterMap_cons, ha, ih]

/-- C7: every anchor with an href is counted in the total; hrefs that are
empty or start with `#` are excluded from both the internal and the external
count; each remaining href is resolved against the page URL and is internal
iff the resolved host equals the page's host or is empty, external otherwise.
Concretely, on page https://example.com/blog the hrefs /about and
https://example.com/contact are internal, https://other.org is external and
#section appears only in the total. -/
theorem analyze_links_classification (url : String) (soup : Soup) :
    (analyze_links url soup).take 3 =
      ["Total links found: " ++
          toString (soup.anchors.countP fun a => a.href.isSome),
       "Internal links: " ++
          toString (((soup.anchors.filterMap fun a => a.href).filter
              fun href => !(href == "" || strStarts href "#")).countP
            ((fun au => netlocOf au == netlocOf url || netlocOf au == "")
              ∘ fun href => urljoin url href)),
       "External links: " ++
          toString (((soup.anchors.filterMap fun a => a.href).filter
              fun href => !(href == "" || strStarts href "#")).countP
            ((fun au => !(netlocOf au == netlocOf url || netlocOf au == ""))
              ∘ fun href => urljoin url href))]
    ∧ analyze_links "https://example.com/blog"
        ⟨none, none, none, none, none, 0, 0, 0, 0, 0, 0, 0, [],
         [⟨some "/about", false⟩, ⟨some "https://example.com/contact", false⟩,
          ⟨some "https://other.org", false⟩, ⟨some "#section", false⟩]⟩ =
      ["Total links found: 4", "Internal links: 2", "External links: 1"] := by
  constructor
  · simp only [analyze_links]
    rw [List.take_left' (by rfl), filter_isSome_filterMap]
    simp only [← List.countP_eq_length_filter, List.countP_map]
  · decide

/-! ## Content extractor (`analyze_content`, seo_analyzer.py lines 132-183) -/

/-- Python `', '.join(...)`-style separator join. -/
def joinSep (sep : String) : List String → String
  | [] => ""
  | [x] => x
  | x :: xs => x ++ (sep ++ joinSep sep xs)

/-- The `headings` dictionary `{f'h{i}': count for i in range(1, 7)}`. -/
def headingCounts (soup : Soup) : List (String × Nat) :=
  [("h1", soup.h1), ("h2", soup.h2), ("h3", soup.h3),
   ("h4", soup.h4), ("h5", soup.h5), ("h6", soup.h6)]

/-- The heading-structure summary line (non-zero levels only). -/
def headingSummary (soup : Soup) : String :=
  joinSep ", " (((headingCounts soup).filter fun p => p.2 > 0).map
    fun p => p.1 ++ (": " ++ toString p.2))

/-- The heading and image findings of `analyze_content` (lines 136-156),
which do not depend on the extracted text. -/
def contentStructure (soup : Soup) : List String :=
  (if soup.h1 = 0 then ["Missing H1 heading (main title)"]
   else if soup.h1 > 1 then
     ["Multiple H1 headings detected (" ++ (toString soup.h1 ++ " found, recommended: 1)")]
   else []) ++
  ["Heading structure: " ++ headingSummary soup] ++
  ["Total images: " ++ toString soup.images.length] ++
  (let images_without_alt := (soup.images.filter fun im => im.alt.getD "" == "").length
   if images_without_alt > 0 then
     ["Images without alt text: " ++ toString images_without_alt]
   else []) ++
  (let large_images := (soup.images.filter fun im =>
      strEnds im.src ".png" || strEnds im.src ".jpg" || strEnds im.src ".jpeg").length
   if large_images > 0 then
     ["Consider optimizing " ++ (toString large_images ++ " large image(s)")]
   else [])

/-- An insertion-ordered frequency table, the model of a Python dict built by
`word_freq[word] = word_freq.get(word, 0) + 1`. -/
def bump : List (String × Nat) → String → List (String × Nat)
  | [], w => [(w, 1)]
  | (k, c) :: rest, w => if k = w then (k, c + 1) :: rest else (k, c) :: bump rest w

/-- One iteration of the `for word in words` frequency loop (only words of
length > 3 are counted, lowercased). -/
def freqStep (freq : List (String × Nat)) (word : String) : List (String × Nat) :=
  if word.length > 3 then bump freq (pyLower word) else freq

/-- The keyword frequency table of `analyze_content`. -/
def wordFreq (words : List String) : List (String × Nat) :=
  words.foldl freqStep []

/-- The comparison of `sorted(word_freq.items(), key=lambda x: x[1],
reverse=True)`: descending counts.  A stable sort under this relation keeps
ties in first-occurrence order, exactly as Python's stable `sorted`. -/
def rDesc (a b : String × Nat) : Prop := b.2 ≤ a.2

instance : DecidableRel rDesc := fun a b => Nat.decLe b.2 a.2

instance : IsTotal (String × Nat) rDesc := ⟨fun a b => le_total b.2 a.2⟩

instance : IsTrans (String × Nat) rDesc := ⟨fun _ _ _ hab hbc => le_trans hbc hab⟩

def contentShortMsg (n : Nat) : String :=
  "Content is too short (" ++ (toString n ++ " words, recommended: minimum 300)")

def contentGoodMsg (n : Nat) : String :=
  "Good content length: " ++ (toString n ++ " words")

/-- `f"- '{word}': {density:.1f}% ({count} occurrences)"`. -/
def keywordMsg (word : String) (count : Nat) (density : ℚ) : String :=
  "- '" ++ (word ++ ("': " ++ (fmt1 density ++ ("% (" ++ (toString count ++ " occurrences)")))))

/-- The text-dependent findings of `analyze_content` (lines 158-182): emitted
only when the extracted text is truthy. -/
def contentTextFindings (text_content : Option String) : List String :=
  match text_content with
  | none => []
  | some t =>
    if t = "" then []
    else
      let words := pySplit t
      let word_count := words.length
      let wc_finding :=
        if word_count < 300 then contentShortMsg word_count else contentGoodMsg word_count
      let word_freq := wordFreq words
      let top_keywords := (List.insertionSort rDesc word_freq).take 5
      wc_finding :: "Top 5 keywords and their density:" ::
        top_keywords.map fun p => keywordMsg p.1 p.2 (((p.2 : ℚ) / (word_count : ℚ)) * 100)

/-- `analyze_content`: heading/image findings followed by the text findings. -/
def analyze_content (soup : Soup) (text_content : Option String) : List String :=
  contentStructure soup ++ contentTextFindings text_content

/-- Predicate of the frequency table: a split token that is counted under
lowercased key `w`. -/
def matchesKey (w : String) (x : String) : Bool :=
  decide (x.length > 3) && (pyLower x == w)

/-- Model of Python dict lookup `word_freq.get(w, 0)` on the table. -/
def lookupC : List (String × Nat) → String → Nat
  | [], _ => 0
  | (k, c) :: rest, w => if k = w then c else lookupC rest w

lemma lookupC_bump (freq : List (String × Nat)) (w w' : String) :
    lookupC (bump freq w) w' =
      if w' = w then lookupC freq w' + 1 else lookupC freq w' := by
  induction freq with
  | nil =>
    by_cases h : w' = w
    · subst h
      simp [bump, lookupC]
    · have h2 : ¬ (w = w') := fun he => h he.symm
      simp [bump, lookupC, h, h2]
  | cons q rest ih =>
    obtain ⟨k, c⟩ := q
    by_cases hk : k = w
    · subst hk
      by_cases h : w' = k
      · subst h
        simp [bump, lookupC]
      · have h2 : ¬ (k = w') := fun he => h he.symm
        simp [bump, lookupC, h, h2]
    · by_cases h : k = w'
      · subst h
        simp [bump, hk, lookupC]
      · simp [bump, lookupC, hk, h, ih]

lemma lookupC_foldl (w : String) (ws : List String) :
    ∀ freq : List (String × Nat),
      lookupC (ws.foldl freqStep freq) w = lookupC freq w + ws.countP (matchesKey w) := by
  induction ws with
  | nil => intro freq; simp
  | cons x ws ih =>
    intro freq
    rw [List.foldl_cons, ih, List.countP_cons]
    unfold freqStep matchesKey
    by_cases hl : x.length > 3
    · rw [if_pos hl, lookupC_bump]
      by_cases hw : w = pyLower x
      · subst hw
        simp [hl]
        omega
      · simp [hl, hw, fun he : pyLower x = w => hw he.symm]
        intro he
        exact absurd he.symm hw
    · simp [hl]

lemma keys_bump (freq : List (String × Nat)) (w : String) :
    (bump freq w).map Prod.fst =
      if w ∈ freq.map Prod.fst then freq.map Prod.fst
      else freq.map Prod.fst ++ [w] := by
  induction freq with
  | nil => simp [bump]
  | cons q rest ih =>
    obtain ⟨k, c⟩ := q
    by_cases hk : k = w
    · subst hk
      simp [bump]
    · simp only [bump, if_neg hk, List.map_cons, ih]
      have h2 : ¬ (w = k) := fun he => hk he.symm
      by_cases hw : w ∈ rest.map Prod.fst
      · simp [hw, h2]
      · simp [hw, h2]

lemma nodup_keys_bump {freq : List (String × Nat)} {w : String}
    (h : (freq.map Prod.fst).Nodup) : ((bump freq w).map Prod.fst).Nodup := by
  rw [keys_bump]
  by_cases hw : w ∈ freq.map Prod.fst
  · rwa [if_pos hw]
  · rw [if_neg hw]
    simp [List.nodup_append, h, hw]

lemma nodup_keys_foldl (ws : List String) :
    ∀ freq : List (String × Nat), (freq.map Prod.fst).Nodup →
      ((ws.foldl freqStep freq).map Prod.fst).Nodup := by
  induction ws with
  | nil => intro freq h; simpa using h
  | cons x ws ih =>
    intro freq h
    rw [List.foldl_cons]
    apply ih
    unfold freqStep
    by_cases hl : x.length > 3
    · rw [if_pos hl]
      exact nodup_keys_bump h
    · rwa [if_neg hl]

/-- The table's keys are exactly the lowercased long tokens in
first-occurrence order. -/
def keyStep (ks : List String) (word : String) : List String :=
  if word.length > 3 then
    (if pyLower word ∈ ks then ks else ks ++ [pyLower word])
  else ks

/-- First occurrences (in order) of the lowercased tokens of length > 3. -/
def firstKeys (words : List String) : List String := words.foldl keyStep []

lemma keys_foldl (ws : List String) :
    ∀ freq : List (String × Nat),
      (ws.foldl freqStep freq).map Prod.fst = ws.foldl keyStep (freq.map Prod.fst) := by
  induction ws with
  | nil => intro freq; rfl
  | cons x ws ih =>
    intro freq
    rw [List.foldl_cons, List.foldl_cons, ih]
    congr 1
    unfold freqStep keyStep
    by_cases hl : x.length > 3
    · rw [if_pos hl, if_pos hl, keys_bump]
    · rw [if_neg hl, if_neg hl]

lemma lookupC_mem {freq : List (String × Nat)} {p : String × Nat}
    (hnd : (freq.map Prod.fst).Nodup) (hp : p ∈ freq) : lookupC freq p.1 = p.2 := by
  induction freq with
  | nil => exact absurd hp (List.not_mem_nil p)
  | cons q rest ih =>
    rcases List.mem_cons.1 hp with h | h
    · subst h
      simp [lookupC]
    · have hq : q.1 ≠ p.1 := by
        intro he
        have : p.1 ∈ rest.map Prod.fst := List.mem_map_of_mem Prod.fst h
        rw [← he] at this
        exact (List.nodup_cons.1 (by simpa using hnd)).1 this
      obtain ⟨k, c⟩ := q
      rw [show lookupC ((k, c) :: rest) p.1 = if k = p.1 then c else lookupC rest p.1 from rfl,
        if_neg hq]
      exact ih (List.nodup_cons.1 (by simpa using hnd)).2 h

lemma wordFreq_nodup (ws : List String) : ((wordFreq ws).map Prod.fst).Nodup :=
  nodup_keys_foldl ws [] (by simp)

lemma wordFreq_count {ws : List String} {p : String × Nat} (hp : p ∈ wordFreq ws) :
    p.2 = ws.countP (matchesKey p.1) := by
  have h1 : lookupC (wordFreq ws) p.1 = p.2 := lookupC_mem (wordFreq_nodup ws) hp
  have h2 := lookupC_foldl p.1 ws []
  rw [wordFreq] at h1
  rw [h1] at h2
  simpa [lookupC] using h2

lemma wordFreq_keys (ws : List String) : (wordFreq ws).map Prod.fst = firstKeys ws := by
  rw [wordFreq, keys_foldl]
  rfl

lemma bump_pos {freq : List (String × Nat)} {w : String}
    (h : ∀ q ∈ freq, 1 ≤ q.2) : ∀ q ∈ bump freq w, 1 ≤ q.2 := by
  induction freq with
  | nil =>
    intro q hq
    rcases List.mem_singleton.1 hq with rfl
    exact Nat.le_refl 1
  | cons r rest ih =>
    obtain ⟨k, c⟩ := r
    intro q hq
    by_cases hk : k = w
    · subst hk
      rw [show bump ((k, c) :: rest) k = (k, c + 1) :: rest from by simp [bump]] at hq
      rcases List.mem_cons.1 hq with rfl | hq
      · exact Nat.le_add_left 1 c
      · exact h q (List.mem_cons_of_mem _ hq)
    · rw [show bump ((k, c) :: rest) w = (k, c) :: bump rest w from by simp [bump, hk]] at hq
      rcases List.mem_cons.1 hq with rfl | hq
      · exact h (k, c) (List.mem_cons_self _ _)
      · exact ih (fun r hr => h r (List.mem_cons_of_mem _ hr)) q hq

lemma wordFreq_pos (ws : List String) : ∀ p ∈ wordFreq ws, 1 ≤ p.2 := by
  have : ∀ (ws : List String) (freq : List (String × Nat)),
      (∀ q ∈ freq, 1 ≤ q.2) → ∀ p ∈ ws.foldl freqStep freq, 1 ≤ p.2 := by
    intro ws
    induction ws with
    | nil => intro freq h; simpa using h
    | cons x ws ih =>
      intro freq h
      rw [List.foldl_cons]
      apply ih
      unfold freqStep
      by_cases hl : x.length > 3
      · rw [if_pos hl]
        exact bump_pos h
      · rwa [if_neg hl]
  exact this ws [] (by simp)

lemma filter_orderedInsert (a : String × Nat) (l : List (String × Nat)) (c : Nat) :
    (List.orderedInsert rDesc a l).filter (fun p => p.2 == c) =
      if a.2 = c then a :: l.filter (fun p => p.2 == c)
      else l.filter (fun p => p.2 == c) := by
  induction l with
  | nil =>
    by_cases h : a.2 = c <;> simp [List.orderedInsert, h]
  | cons b l ih =>
    by_cases hr : rDesc a b
    · rw [show List.orderedInsert rDesc a (b :: l) = a :: b :: l from if_pos hr]
      by_cases ha : a.2 = c <;> by_cases hb : b.2 = c <;>
        simp [List.filter_cons, ha, hb]
    · have hlt : a.2 < b.2 := by
        unfold rDesc at hr
        omega
      rw [show List.orderedInsert rDesc a (b :: l) = b :: List.orderedInsert rDesc a l from
        if_neg hr]
      by_cases ha : a.2 = c <;> by_cases hb : b.2 = c
      · omega
      · simp [List.filter_cons, ha, hb, ih]
      · simp [List.filter_cons, ha, hb, ih]
      · simp [List.filter_cons, ha, hb, ih]

lemma filter_insertionSort (l : List (String × Nat)) (c : Nat) :
    (List.insertionSort rDesc l).filter (fun p => p.2 == c) =
      l.filter (fun p => p.2 == c) := by
  induction l with
  | nil => rfl
  | cons a l ih =>
    rw [show List.insertionSort rDesc (a :: l)
        = List.orderedInsert rDesc a (List.insertionSort rDesc l) from rfl,
      filter_orderedInsert, ih]
    by_cases ha : a.2 = c <;> simp [List.filter_cons, ha]

unseal Rat.mul Rat.add Rat.sub Rat.inv in
/-- C6 counterexample: each keyword finding starts with "- " before the
quoted word, so the finding for the top keyword of "alpha alpha beta cat" is
"- 'alpha': 50.0% (2 occurrences)", and the claim's format
"'alpha': 50.0% (2 occurrences)" is not among the findings. -/
theorem content_keyword_format_counterexample :
    contentTextFindings (some "alpha alpha beta cat") =
      ["Content is too short (4 words, recommended: minimum 300)",
       "Top 5 keywords and their density:",
       "- 'alpha': 50.0% (2 occurrences)",
       "- 'beta': 25.0% (1 occurrences)"]
    ∧ ("'alpha': 50.0% (2 occurrences)" : String) ∉
        contentTextFindings (some "alpha alpha beta cat") := by
  constructor
  · decide
  · decide

/-- C6 (amended): for every non-empty extracted text the Content extractor
splits it on whitespace into N tokens, builds an insertion-ordered frequency
table over the lowercased tokens of length > 3 (each entry's count being the
number of such tokens), sorts it by descending count with a stable sort
(ties keep first-occurrence order), takes the top 5, and emits one finding
per top keyword formatted as `- '<word>': <density>% (<count> occurrences)`
with density = 100·count/N rounded to one decimal place, where N is the full
token count including short tokens. -/
theorem analyze_content_keywords (t : String) (h : t ≠ "") :
    contentTextFindings (some t) =
      (if (pySplit t).length < 300 then contentShortMsg (pySplit t).length
        else contentGoodMsg (pySplit t).length)
        :: "Top 5 keywords and their density:"
        :: ((List.insertionSort rDesc (wordFreq (pySplit t))).take 5).map
            (fun p => keywordMsg p.1 p.2 (((p.2 : ℚ) / (((pySplit t).length : Nat) : ℚ)) * 100))
    ∧ (∀ p ∈ wordFreq (pySplit t), p.2 = (pySplit t).countP (matchesKey p.1))
    ∧ ((wordFreq (pySplit t)).map Prod.fst).Nodup
    ∧ (wordFreq (pySplit t)).map Prod.fst = firstKeys (pySplit t)
    ∧ List.Perm (List.insertionSort rDesc (wordFreq (pySplit t))) (wordFreq (pySplit t))
    ∧ List.Sorted rDesc (List.insertionSort rDesc (wordFreq (pySplit t)))
    ∧ (∀ c : Nat, (List.insertionSort rDesc (wordFreq (pySplit t))).filter (fun p => p.2 == c)
        = (wordFreq (pySplit t)).filter (fun p => p.2 == c)) := by
  refine ⟨?_, fun p hp => wordFreq_count hp, wordFreq_nodup _, wordFreq_keys _,
    List.perm_insertionSort rDesc _, List.sorted_insertionSort rDesc _,
    fun c => filter_insertionSort _ c⟩
  simp [contentTextFindings, h]

/-- Witness for the amended C6 theorem on a concrete text. -/
theorem analyze_content_keywords_witness :
    contentTextFindings (some "alpha alpha beta cat") =
      (if (pySplit "alpha alpha beta cat").length < 300
        then contentShortMsg (pySplit "alpha alpha beta cat").length
        else contentGoodMsg (pySplit "alpha alpha beta cat").length)
        :: "Top 5 keywords and their density:"
        :: ((List.insertionSort rDesc (wordFreq (pySplit "alpha alpha beta cat"))).take 5).map
            (fun p => keywordMsg p.1 p.2
              (((p.2 : ℚ) / ((pySplit "alpha alpha beta cat").length : ℚ)) * 100)) :=
  (analyze_content_keywords "alpha alpha beta cat" (by decide)).1

/-- C10: whenever a keyword-density finding is emitted, the keyword's count is
at least 1 and at most the total token count N, so the division density =
count/N · 100 never divides by zero and every emitted density lies in
(0, 100]. -/
theorem analyze_content_density_bounds (t : String) (p : String × Nat)
    (hp : p ∈ (List.insertionSort rDesc (wordFreq (pySplit t))).take 5) :
    1 ≤ p.2 ∧ p.2 ≤ (pySplit t).length
    ∧ 0 < ((p.2 : ℚ) / (((pySplit t).length : Nat) : ℚ)) * 100
    ∧ ((p.2 : ℚ) / (((pySplit t).length : Nat) : ℚ)) * 100 ≤ 100 := by
  have hmem : p ∈ wordFreq (pySplit t) := by
    have h1 : p ∈ List.insertionSort rDesc (wordFreq (pySplit t)) :=
      List.mem_of_mem_take hp
    exact (List.mem_insertionSort rDesc).1 h1
  have h1 : 1 ≤ p.2 := wordFreq_pos (pySplit t) p hmem
  have h2 : p.2 ≤ (pySplit t).length := by
    rw [wordFreq_count hmem]
    exact List.countP_le_length _
  have hn : 0 < (pySplit t).length := lt_of_lt_of_le h1 h2
  have hnq : (0 : ℚ) < ((pySplit t).length : ℚ) := by exact_mod_cast hn
  have hcq : (0 : ℚ) < (p.2 : ℚ) := by exact_mod_cast h1
  have hle : (p.2 : ℚ) ≤ ((pySplit t).length : ℚ) := by exact_mod_cast h2
  refine ⟨h1, h2, ?_, ?_⟩
  · have := div_pos hcq hnq
    nlinarith
  · have hdiv : (p.2 : ℚ) / ((pySplit t).length : ℚ) ≤ 1 := (div_le_one hnq).2 hle
    nlinarith

/-- Witness for C10 at the top keyword of a concrete text. -/
theorem analyze_content_density_bounds_witness :
    1 ≤ (("alpha", 2) : String × Nat).2
    ∧ (("alpha", 2) : String × Nat).2 ≤ (pySplit "alpha alpha beta cat").length
    ∧ 0 < (((("alpha", 2) : String × Nat).2 : ℚ)
        / (((pySplit "alpha alpha beta cat").length : Nat) : ℚ)) * 100
    ∧ (((("alpha", 2) : String × Nat).2 : ℚ)
        / (((pySplit "alpha alpha beta cat").length : Nat) : ℚ)) * 100 ≤ 100 :=
  analyze_content_density_bounds "alpha alpha beta cat" ("alpha", 2) (by decide)

lemma mem_contentStructure {soup : Soup} {f : String} (h : f ∈ contentStructure soup) :
    f = "Missing H1 heading (main title)"
    ∨ f = "Multiple H1 headings detected (" ++ (toString soup.h1 ++ " found, recommended: 1)")
    ∨ f = "Heading structure: " ++ headingSummary soup
    ∨ f = "Total images: " ++ toString soup.images.length
    ∨ f = "Images without alt text: "
        ++ toString (soup.images.filter fun im => im.alt.getD "" == "").length
    ∨ f = "Consider optimizing "
        ++ (toString (soup.images.filter fun im =>
            strEnds im.src ".png" || strEnds im.src ".jpg" || strEnds im.src ".jpeg").length
          ++ " large image(s)") := by
  simp only [contentStructure] at h
  split_ifs at h <;> simp_all [List.mem_append, List.mem_cons] <;> tauto

lemma topHeader_notMem_contentStructure (soup : Soup) :
    ("Top 5 keywords and their density:" : String) ∉ contentStructure soup := by
  intro h
  rcases mem_contentStructure h with h | h | h | h | h | h
  · exact absurd h (by decide)
  · exact absurd h (ne_append _ 0 (by decide) (by decide))
  · exact absurd h (ne_append _ 0 (by decide) (by decide))
  · exact absurd h (ne_append _ 2 (by decide) (by decide))
  · exact absurd h (ne_append _ 0 (by decide) (by decide))
  · exact absurd h (ne_append _ 0 (by decide) (by decide))

lemma contentShortMsg_notMem_contentStructure (soup : Soup) (n : Nat) :
    contentShortMsg n ∉ contentStructure soup := by
  intro h
  rcases mem_contentStructure h with h | h | h | h | h | h
  · exact absurd h.symm (ne_append _ 0 (by decide) (by decide))
  · exact absurd h (by
      unfold contentShortMsg
      exact append_ne_append _ _ 0 (by decide) (by decide) (by decide))
  · exact absurd h (by
      unfold contentShortMsg
      exact append_ne_append _ _ 0 (by decide) (by decide) (by decide))
  · exact absurd h (by
      unfold contentShortMsg
      exact append_ne_append _ _ 0 (by decide) (by decide) (by decide))
  · exact absurd h (by
      unfold contentShortMsg
      exact append_ne_append _ _ 0 (by decide) (by decide) (by decide))
  · exact absurd h (by
      unfold contentShortMsg
      exact append_ne_append _ _ 3 (by decide) (by decide) (by decide))

lemma contentGoodMsg_notMem_contentStructure (soup : Soup) (n : Nat) :
    contentGoodMsg n ∉ contentStructure soup := by
  intro h
  rcases mem_contentStructure h with h | h | h | h | h | h
  · exact absurd h.symm (ne_append _ 0 (by decide) (by decide))
  · exact absurd h (by
      unfold contentGoodMsg
      exact append_ne_append _ _ 0 (by decide) (by decide) (by decide))
  · exact absurd h (by
      unfold contentGoodMsg
      exact append_ne_append _ _ 0 (by decide) (by decide) (by decide))
  · exact absurd h (by
      unfold contentGoodMsg
      exact append_ne_append _ _ 0 (by decide) (by decide) (by decide))
  · exact absurd h (by
      unfold contentGoodMsg
      exact append_ne_append _ _ 0 (by decide) (by decide) (by decide))
  · exact absurd h (by
      unfold contentGoodMsg
      exact append_ne_append _ _ 0 (by decide) (by decide) (by decide))

lemma keywordMsg_notMem_contentStructure (soup : Soup) (w : String) (c : Nat) (d : ℚ) :
    keywordMsg w c d ∉ contentStructure soup := by
  intro h
  rcases mem_contentStructure h with h | h | h | h | h | h
  · exact absurd h.symm (ne_append _ 0 (by decide) (by decide))
  · exact absurd h (by
      unfold keywordMsg
      exact append_ne_append _ _ 0 (by decide) (by decide) (by decide))
  · exact absurd h (by
      unfold keywordMsg
      exact append_ne_append _ _ 0 (by decide) (by decide) (by decide))
  · exact absurd h (by
      unfold keywordMsg
      exact append_ne_append _ _ 0 (by decide) (by decide) (by decide))
  · exact absurd h (by
      unfold keywordMsg
      exact append_ne_append _ _ 0 (by decide) (by decide) (by decide))
  · exact absurd h (by
      unfold keywordMsg
      exact append_ne_append _ _ 0 (by decide) (by decide) (by decide))

/-- C9: when the extracted text is absent (None or empty), the Content
extractor yields exactly the heading/image findings — including the
heading-structure summary and the image total — with no word-count finding,
no keyword header and no keyword-density findings, and the content sub-score
is the clamped deduction over exactly those findings. -/
theorem analyze_content_degrades (soup : Soup) (text_content : Option String)
    (h : text_content = none ∨ text_content = some "") :
    analyze_content soup text_content = contentStructure soup
    ∧ ("Heading structure: " ++ headingSummary soup) ∈ analyze_content soup text_content
    ∧ ("Total images: " ++ toString soup.images.length) ∈ analyze_content soup text_content
    ∧ ("Top 5 keywords and their density:" : String) ∉ analyze_content soup text_content
    ∧ (∀ n : Nat, contentShortMsg n ∉ analyze_content soup text_content
        ∧ contentGoodMsg n ∉ analyze_content soup text_content)
    ∧ (∀ (w : String) (c : Nat) (d : ℚ), keywordMsg w c d ∉ analyze_content soup text_content)
    ∧ (calculate_scores [] (analyze_content soup text_content) [] [] [] []).content
        = clamp100 (100 - 10 * (count_issues (analyze_content soup text_content)
            ["missing", "too short", "multiple"] : ℚ)) := by
  have heq : analyze_content soup text_content = contentStructure soup := by
    rcases h with rfl | rfl <;> simp [analyze_content, contentTextFindings]
  rw [heq]
  refine ⟨rfl, ?_, ?_, topHeader_notMem_contentStructure soup,
    fun n => ⟨contentShortMsg_notMem_contentStructure soup n,
      contentGoodMsg_notMem_contentStructure soup n⟩,
    fun w c d => keywordMsg_notMem_contentStructure soup w c d, ?_⟩
  · simp [contentStructure]
  · simp [contentStructure]
  · simp only [calculate_scores]
    congr 1
    push_cast
    ring

/-- Witness for C9 at a concrete document with no extracted text. -/
theorem analyze_content_degrades_witness :
    analyze_content ⟨none, none, none, none, none, 0, 0, 0, 0, 0, 0, 0, [], []⟩ none
      = contentStructure ⟨none, none, none, none, none, 0, 0, 0, 0, 0, 0, 0, [], []⟩
    ∧ ("Top 5 keywords and their density:" : String)
        ∉ analyze_content ⟨none, none, none, none, none, 0, 0, 0, 0, 0, 0, 0, [], []⟩ none :=
  ⟨(analyze_content_degrades ⟨none, none, none, none, none, 0, 0, 0, 0, 0, 0, 0, [], []⟩
      none (Or.inl rfl)).1,
   (analyze_content_degrades ⟨none, none, none, none, none, 0, 0, 0, 0, 0, 0, 0, [], []⟩
      none (Or.inl rfl)).2.2.2.1⟩
